import Mathlib

/-!
Verification development for the stream-recorder core.

The definitions below are a shallow embedding of the TypeScript source:

* `src/types/settings.ts`   -- the `Settings` record and its enumerations
* `src/types/recording.ts`  -- `Recording`, `RecordingStatus`
* `src/lib/ffmpeg.ts`       -- `buildFFmpegArgs`, `getHardwareAccelArgs`,
  `getVideoEncoder`, `mergeRecordingParts`
* the pooled prober module  -- the RTSP response classification performed in
  the data handler of `createConnectionEntry`
* `src/lib/RecordingManager.ts` -- `getSanitizedName`, the subprocess close
  handler, `finish`, `stop`, `update`
* `src/lib/recordings.ts`   -- `updateRecording`
* the storage module        -- `getTotalStorageUsed`, `cleanupOldRecordings`,
  `enforceStorageLimit`

Machine conventions: ISO timestamp strings that the source compares through
`new Date(...).getTime()` are modelled as epoch milliseconds (`Int`);
JavaScript numbers used for sizes are modelled exactly as rationals
(`Rat`); filesystem and subprocess effects are modelled by explicit inputs
(size maps, success predicates, exit codes) passed to the embedded
functions; thrown exceptions are modelled with `Except String`.
-/

namespace StreamRecorder

/-! ## Settings and transcoder argument builder (`ffmpeg.ts`, `settings.ts`) -/

/-- Hardware acceleration option, from `Settings["hardwareAcceleration"]`. -/
inductive HardwareAcceleration
  | auto | nvidia | intel | amd | none
  deriving DecidableEq, Repr

/-- Container format option, from `Settings["outputFormat"]`. -/
inductive OutputFormat
  | mp4 | mkv | avi | ts
  deriving DecidableEq, Repr

/-- Video codec option, from `Settings["videoCodec"]`. -/
inductive VideoCodec
  | copy | h264 | h265 | vp9
  deriving DecidableEq, Repr

/-- Audio codec option, from `Settings["audioCodec"]`. -/
inductive AudioCodec
  | copy | aac | mp3 | opus
  deriving DecidableEq, Repr

/-- RTSP transport option, from `Settings["rtspTransport"]`. -/
inductive RtspTransport
  | tcp | udp | http
  deriving DecidableEq, Repr

/-- The string value the TypeScript enum literal carries at runtime. -/
def RtspTransport.str : RtspTransport → String
  | .tcp => "tcp"
  | .udp => "udp"
  | .http => "http"

/-- The string value the TypeScript enum literal carries at runtime. -/
def AudioCodec.str : AudioCodec → String
  | .copy => "copy"
  | .aac => "aac"
  | .mp3 => "mp3"
  | .opus => "opus"

/-- The `Settings` record of `src/types/settings.ts`; preview fields are
omitted because no embedded function reads them. -/
structure Settings where
  ffmpegPath : String
  hardwareAcceleration : HardwareAcceleration
  outputFormat : OutputFormat
  videoCodec : VideoCodec
  audioCodec : AudioCodec
  defaultDuration : Int
  rtspTransport : RtspTransport
  reconnectAttempts : Int
  reconnectDelay : Int
  outputDirectory : String
  maxStorageGB : Rat
  autoDeleteAfterDays : Int
  deriving DecidableEq, Repr

/-- `getHardwareAccelArgs` of `src/lib/ffmpeg.ts`: input and output flag
lists per acceleration choice; the `default` branch of the `switch` covers
`none`. -/
def getHardwareAccelArgs : HardwareAcceleration → List String × List String
  | .nvidia => (["-hwaccel", "cuda", "-hwaccel_output_format", "cuda"], [])
  | .intel => (["-hwaccel", "qsv", "-hwaccel_output_format", "qsv"], [])
  | .amd => (["-hwaccel", "amf"], [])
  | .auto => (["-hwaccel", "auto"], [])
  | .none => ([], [])

/-- `getVideoEncoder` of `src/lib/ffmpeg.ts`: concrete encoder name resolved
from the codec choice and the acceleration family. -/
def getVideoEncoder (codec : VideoCodec) (hwAccel : HardwareAcceleration) : String :=
  match hwAccel with
  | .none =>
    match codec with
    | .h265 => "libx265"
    | .vp9 => "libvpx-vp9"
    | _ => "libx264"
  | .nvidia =>
    match codec with
    | .h265 => "hevc_nvenc"
    | _ => "h264_nvenc"
  | .intel =>
    match codec with
    | .h265 => "hevc_qsv"
    | .vp9 => "vp9_qsv"
    | _ => "h264_qsv"
  | .amd =>
    match codec with
    | .h265 => "hevc_amf"
    | _ => "h264_amf"
  | .auto =>
    match codec with
    | .h264 => "h264_nvenc"
    | .h265 => "hevc_nvenc"
    | _ => "libx264"

/-- `buildFFmpegArgs` of `src/lib/ffmpeg.ts`, with the `loadSettings()` value
passed explicitly.  The list is assembled in the push order of the source:
hardware-acceleration input flags (guarded by `!== "none"`), RTSP transport,
RTSP flags, input URL, video codec, audio codec, duration, mp4 mux flags,
overwrite flag, output path. -/
def buildFFmpegArgs (settings : Settings) (rtspUrl outputPath : String)
    (duration : Int) : List String :=
  (if settings.hardwareAcceleration ≠ HardwareAcceleration.none then
    (getHardwareAccelArgs settings.hardwareAcceleration).1
  else [])
  ++ ["-rtsp_transport", settings.rtspTransport.str]
  ++ ["-rtsp_flags", "prefer_tcp"]
  ++ ["-i", rtspUrl]
  ++ (if settings.videoCodec = VideoCodec.copy then ["-c:v", "copy"]
      else ["-c:v", getVideoEncoder settings.videoCodec settings.hardwareAcceleration])
  ++ (if settings.audioCodec = AudioCodec.copy then ["-c:a", "copy"]
      else ["-c:a", settings.audioCodec.str])
  ++ ["-t", toString duration]
  ++ (if settings.outputFormat = OutputFormat.mp4 then ["-movflags", "+faststart"]
      else [])
  ++ ["-y"]
  ++ [outputPath]

/-- Written from the spec sentence for comparison: the hwaccel-input flag
list as the specification states it (`nvidia` and `intel` get a two-option
pair, `amd` and `auto` a single option, `none` nothing). -/
def specHwaccelInputFlags : HardwareAcceleration → List String
  | .nvidia => ["-hwaccel", "cuda", "-hwaccel_output_format", "cuda"]
  | .intel => ["-hwaccel", "qsv", "-hwaccel_output_format", "qsv"]
  | .amd => ["-hwaccel", "amf"]
  | .auto => ["-hwaccel", "auto"]
  | .none => []

/-- Resolved `-c:v` value: `copy` short-circuits, otherwise the encoder
resolved from (codec, hwaccel). -/
def resolvedVideoCodec (s : Settings) : String :=
  if s.videoCodec = VideoCodec.copy then "copy"
  else getVideoEncoder s.videoCodec s.hardwareAcceleration

/-- Resolved `-c:a` value: `copy` short-circuits, otherwise the audio codec
string. -/
def resolvedAudioCodec (s : Settings) : String :=
  if s.audioCodec = AudioCodec.copy then "copy" else s.audioCodec.str

/-! ## Sanitized names and output paths (`RecordingManager.ts`) -/

/-- `getSanitizedName` of `RecordingManager`:
`this.name.replace(/[^a-zA-Z0-9]/g, "_")` -- every character outside
`[a-zA-Z0-9]` becomes an underscore. -/
def getSanitizedName (name : String) : String :=
  String.mk (name.data.map (fun c => if c.isAlphanum then c else '_'))

/-- Per-attempt output file name built in `RecordingManager.startRecording`:
`sanitizedName_timestamp_attemptN.format`. -/
def attemptFileName (name timestamp : String) (attempt : Nat) (fmt : String) : String :=
  getSanitizedName name ++ "_" ++ timestamp ++ "_attempt" ++ toString attempt ++ "." ++ fmt

/-- Final stitched file name built in the `RecordingManager` constructor:
`sanitizedName_id.format`. -/
def finalFileName (name id fmt : String) : String :=
  getSanitizedName name ++ "_" ++ id ++ "." ++ fmt

/-- Model of `path.join(dir, fname)` for a separator-free relative file
name: the result is an entry directly inside `dir`. -/
def pathJoin (dir fname : String) : String := dir ++ "/" ++ fname

/-! ## RTSP liveness prober classification (pooled prober data handler) -/

/-- Probe outcome, from `StreamStatus` of the prober module. -/
inductive StreamStatus
  | live | not_found | invalid | timeout | error
  deriving DecidableEq, Repr

/-- Value of the leading decimal-digit run of a character list; nothing
when the list does not start with a digit. -/
def leadingDigitsVal (l : List Char) : Option Nat :=
  let ds := l.takeWhile Char.isDigit
  if ds.isEmpty then Option.none
  else some (ds.foldl (fun acc c => 10 * acc + (c.toNat - '0'.toNat)) 0)

/-- Model of JavaScript `parseInt(s, 10)` on a character list: skip leading
whitespace, accept an optional sign, then read the leading run of decimal
digits; `NaN` (modelled as `none`) when no digit follows. -/
def jsParseInt (s : List Char) : Option Int :=
  match s.dropWhile Char.isWhitespace with
  | [] => Option.none
  | c :: rest =>
    if c = '-' then (leadingDigitsVal rest).map (fun n => -(n : Int))
    else if c = '+' then (leadingDigitsVal rest).map (fun n => (n : Int))
    else (leadingDigitsVal (c :: rest)).map (fun n => (n : Int))

/-- Model of JavaScript `s.split(" ")`: consecutive separators produce
empty fields, the empty string splits to one empty field. -/
def splitOnSpace : List Char → List (List Char)
  | [] => [[]]
  | c :: rest =>
    if c = ' ' then [] :: splitOnSpace rest
    else
      match splitOnSpace rest with
      | [] => [[c]]
      | g :: gs => (c :: g) :: gs

/-- Model of JavaScript `s.split("\r\n")`. -/
def splitOnCRLF : List Char → List (List Char)
  | [] => [[]]
  | '\r' :: '\n' :: rest => [] :: splitOnCRLF rest
  | c :: rest =>
    match splitOnCRLF rest with
    | [] => [[c]]
    | g :: gs => (c :: g) :: gs

/-- Model of JavaScript `s.trim()`: drop whitespace at both ends. -/
def trimChars (l : List Char) : List Char :=
  ((l.dropWhile Char.isWhitespace).reverse.dropWhile Char.isWhitespace).reverse

/-- Start line of a raw RTSP message: `raw.split("\r\n")`, first element or
the empty string, trimmed -- from the prober's data handler. -/
def statusLineOf (raw : List Char) : List Char :=
  trimChars ((splitOnCRLF raw).headD [])

/-- Classification performed on the start line in the data handler of
`createConnectionEntry` (and identically in `checkStreamStatus` of the
serialized prober): reject non-`RTSP/1.0` lines, `parseInt` the second
space-separated token, reject `NaN`, then branch on the ranges. -/
def classifyStatusLine (statusLine : List Char) : StreamStatus :=
  if ¬ "RTSP/1.0".data.isPrefixOf statusLine then StreamStatus.invalid
  else
    match ((splitOnSpace statusLine).get? 1).bind jsParseInt with
    | Option.none => StreamStatus.invalid
    | some statusCode =>
      if 200 ≤ statusCode ∧ statusCode < 300 then StreamStatus.live
      else if statusCode = 404 then StreamStatus.not_found
      else StreamStatus.error

/-- Outcome the prober resolves for a complete RTSP response: classify its
start line. -/
def processResponse (raw : String) : StreamStatus :=
  classifyStatusLine (statusLineOf raw.data)

/-- Written from the spec sentence for comparison: the numeric status code
of a start line is the `parseInt` of its second space-separated token. -/
def statusCodeOfStartLine (line : List Char) : Option Int :=
  ((splitOnSpace line).get? 1).bind jsParseInt

/-- Written from the spec sentence for comparison: `2xx` is live, `404` is
not found, any other numeric status is an error, a non-RTSP start line or a
non-numeric status is invalid. -/
def specProbeClassification (startLine : List Char) : StreamStatus :=
  if "RTSP/1.0".data.isPrefixOf startLine then
    match statusCodeOfStartLine startLine with
    | some n =>
      if 200 ≤ n ∧ n < 300 then StreamStatus.live
      else if n = 404 then StreamStatus.not_found
      else StreamStatus.error
    | Option.none => StreamStatus.invalid
  else StreamStatus.invalid

/-! ## Recording data model (`types/recording.ts`) -/

/-- Derived runtime status of a recording (`RecordingStatus`). -/
inductive RecordingStatus
  | scheduled | starting | recording | completed | failed | cancelled | retrying
  deriving DecidableEq, Repr

/-- Persisted `Recording` document row.  Date strings that the source only
ever compares through `new Date(...).getTime()` (`updatedAt`, `createdAt`,
`completedAt`) are modelled as epoch milliseconds; `startTime` is kept as
the stored string because the update path stores the client string
verbatim. -/
structure Recording where
  id : String
  name : String
  rtspUrl : String
  startTime : String
  duration : Int
  success : Option Bool
  outputPath : Option String
  createdAt : Int
  updatedAt : Int
  completedAt : Option Int
  errorMessage : Option String
  deriving DecidableEq, Repr

/-! ## Recording supervisor (`RecordingManager.ts`) -/

/-- `hasStarted()` of `RecordingManager`. -/
def hasStarted (s : RecordingStatus) : Bool :=
  s == RecordingStatus.recording || s == RecordingStatus.starting
    || s == RecordingStatus.retrying

/-- `hasCompleted()` of `RecordingManager`. -/
def hasCompleted (s : RecordingStatus) : Bool :=
  s == RecordingStatus.completed || s == RecordingStatus.failed
    || s == RecordingStatus.cancelled

/-- In-memory supervisor state relevant to `stop()`: current status and the
abort token. -/
structure SupervisorState where
  status : RecordingStatus
  aborted : Bool
  deriving DecidableEq, Repr

/-- `RecordingManager.stop()`: abort the controller and set the status to
cancelled -- the source performs both unconditionally. -/
def SupervisorState.stop (s : SupervisorState) : SupervisorState :=
  { s with aborted := true, status := RecordingStatus.cancelled }

/-- Action decided by the subprocess `close` handler in
`RecordingManager.startRecording`. -/
inductive CloseAction
  | finalize (status : RecordingStatus) (attempts : List String) (message : Option String)
  | retry (attempts : List String)
  deriving DecidableEq, Repr

/-- The subprocess `close` handler of `RecordingManager.startRecording`:
push the attempt path when the output directory exists, then branch on the
abort flag and the remaining duration.  The retry branch re-enters
`_start`; the other branches call `finish` with the shown status and
message. -/
def closeHandler (dirExists aborted : Bool) (remaining : Rat)
    (attempts : List String) (outputPath : String) : CloseAction :=
  let attempts' := if dirExists then attempts ++ [outputPath] else attempts
  if aborted then
    CloseAction.finalize RecordingStatus.cancelled attempts' (some "Recording was cancelled.")
  else if remaining > 0 then CloseAction.retry attempts'
  else CloseAction.finalize RecordingStatus.completed attempts' Option.none

/-- Error message composed in the `catch` block of `RecordingManager.finish`
when `mergeRecordingParts` throws: the stitch error first, any caller
message appended after a separator. -/
def mergeFailureMessage (e : String) (errorMessage : Option String) : String :=
  "Recording completed but failed to merge parts: " ++ e ++
    (match errorMessage with
     | some m => " | " ++ m
     | Option.none => "")

/-- `RecordingManager.finish(errorMessage?)` as a pure function.

Inputs: the supervisor status at entry, the attempt path list, the
canonical final path, the optional error-message argument, the outcome of
`mergeRecordingParts` (`some e` when it throws with message `e`, `none`
when it returns), the persisted row found for this id (or `none`), and the
current time.  Output: the supervisor status afterwards, and the row as
written through `saveRecordings` (`none` when `finish` returns without
writing). -/
def finish (status : RecordingStatus) (attemptPaths : List String)
    (finalFilePath : String) (errorMessage : Option String)
    (mergeOutcome : Option String) (row : Option Recording) (now : Int) :
    RecordingStatus × Option Recording :=
  let alreadyDone :=
    match row with
    | some r => r.success.isSome
    | Option.none => false
  if alreadyDone then (status, Option.none)
  else
    let afterMerge :=
      if 0 < attemptPaths.length then
        match mergeOutcome with
        | some e => (RecordingStatus.failed, some (mergeFailureMessage e errorMessage))
        | Option.none => (status, errorMessage)
      else (status, errorMessage)
    match row with
    | Option.none => (afterMerge.1, Option.none)
    | some r =>
      let success : Bool :=
        !(afterMerge.1 == RecordingStatus.failed) && decide (0 < attemptPaths.length)
      (afterMerge.1, some { r with
        success := some success,
        outputPath := if success then some finalFilePath else Option.none,
        errorMessage := afterMerge.2,
        updatedAt := now,
        completedAt := some now })

/-! ## Update command (`RecordingManager.update`, `recordings.ts`) -/

/-- `UpdateRecordingDto`: the partial fields of an update command. -/
structure UpdateData where
  name : Option String
  url : Option String
  startTime : Option String
  duration : Option Int
  deriving DecidableEq, Repr

/-- In-memory mutable schedule of a `RecordingManager`. -/
structure ManagerState where
  status : RecordingStatus
  name : String
  url : String
  startTime : String
  duration : Int
  deriving DecidableEq, Repr

/-- `if (data.name) { this.name = data.name }`: JavaScript truthiness skips
an absent or empty string. -/
def applyName (st : ManagerState) (v : Option String) : ManagerState :=
  match v with
  | some s => if s.isEmpty then st else { st with name := s }
  | Option.none => st

/-- `if (data.url) { ...scheme check... }`: truthiness, then the `rtsp://`
prefix check, then assignment. -/
def applyUrl (st : ManagerState) (v : Option String) : Except String ManagerState :=
  match v with
  | some s =>
    if s.isEmpty then Except.ok st
    else if ¬ "rtsp://".data.isPrefixOf s.data then
      Except.error "Invalid RTSP URL provided for update. Must start with rtsp://"
    else Except.ok { st with url := s }
  | Option.none => Except.ok st

/-- `if (data.startTime) { ...date check... }`: truthiness, then the
`isNaN(new Date(...))` check (modelled by the `validDate` oracle), then
assignment. -/
def applyStartTime (validDate : String → Bool) (st : ManagerState)
    (v : Option String) : Except String ManagerState :=
  match v with
  | some s =>
    if s.isEmpty then Except.ok st
    else if ¬ validDate s then
      Except.error "Invalid start time provided for update. Must be a valid ISO date string."
    else Except.ok { st with startTime := s }
  | Option.none => Except.ok st

/-- `if (data.duration) { if (data.duration <= 0) throw ...; ... }`: the
outer truthiness test skips `0` entirely, so only strictly negative values
reach the sign check. -/
def applyDuration (st : ManagerState) (v : Option Int) : Except String ManagerState :=
  match v with
  | some d =>
    if d = 0 then Except.ok st
    else if d ≤ 0 then
      Except.error "Invalid duration provided for update. Must be a positive number."
    else Except.ok { st with duration := d }
  | Option.none => Except.ok st

/-- `RecordingManager.update(data)`: reject when started or completed, then
apply name, url, startTime, duration in order with the source's
truthiness-guarded validations (timer re-arming is a timer effect and is
not modelled). -/
def ManagerState.update (validDate : String → Bool) (st : ManagerState)
    (data : UpdateData) : Except String ManagerState :=
  if hasStarted st.status then
    Except.error "Cannot update recording because it has already started."
  else if hasCompleted st.status then
    Except.error "Cannot update recording because it has already completed."
  else do
    let st1 := applyName st data.name
    let st2 ← applyUrl st1 data.url
    let st3 ← applyStartTime validDate st2 data.startTime
    applyDuration st3 data.duration

/-- Object-spread update `{ ...recording, ...data, id, updatedAt }` of
`updateRecording`: every field present in the DTO overwrites the stored
field, regardless of its value. -/
def spreadUpdate (r : Recording) (data : UpdateData) (now : Int) : Recording :=
  { r with
    name := data.name.getD r.name,
    rtspUrl := data.url.getD r.rtspUrl,
    startTime := data.startTime.getD r.startTime,
    duration := data.duration.getD r.duration,
    updatedAt := now }

/-- Replace the first list entry satisfying the predicate. -/
def replaceFirst (p : Recording → Bool) (f : Recording → Recording) :
    List Recording → List Recording
  | [] => []
  | x :: xs => if p x then f x :: xs else x :: replaceFirst p f xs

/-- `updateRecording(id, data)` of `src/lib/recordings.ts`: `null` when the
id is unknown (modelled `ok none`), conflict errors when the supervisor has
started or completed, then `manager.update(data)` followed by the object
spread written through `saveRecordings`.  The supervisor state for the id
is passed explicitly. -/
def updateRecording (validDate : String → Bool) (recordings : List Recording)
    (id : String) (mgr : ManagerState) (data : UpdateData) (now : Int) :
    Except String (Option (List Recording × ManagerState)) :=
  match recordings.find? (fun r => r.id == id) with
  | Option.none => Except.ok Option.none
  | some r =>
    if hasStarted mgr.status then Except.error "Cannot update a recording in progress"
    else if hasCompleted mgr.status then
      Except.error "Cannot update a recording that has already completed"
    else
      match ManagerState.update validDate mgr data with
      | Except.error e => Except.error e
      | Except.ok mgr2 =>
        let updated := spreadUpdate r data now
        Except.ok (some
          (replaceFirst (fun x => x.id == id) (fun _ => updated) recordings, mgr2))

/-! ## Storage custodian (storage module) -/

/-- One gigabyte in bytes, the divisor used throughout the storage module. -/
def gb : Rat := 1024 * 1024 * 1024

/-- Bytes contributed by one recording to the storage total: the size of
its output file when the path is set and the file exists (`none` in the
size map models a missing file or a failing `statSync`). -/
def fileSizeOf (fsSize : String → Option Rat) (r : Recording) : Rat :=
  match r.outputPath with
  | some p => (fsSize p).getD 0
  | Option.none => 0

/-- `getTotalStorageUsed()`: total bytes across all recordings' outputs,
converted to GB. -/
def getTotalStorageUsed (fsSize : String → Option Rat) (recordings : List Recording) : Rat :=
  (recordings.foldl (fun acc r => acc + fileSizeOf fsSize r) 0) / gb

/-- Loop body of `cleanupOldRecordings`: a recording whose `completedAt` is
set and older than the cutoff has its file deleted and its row dropped; a
failing file deletion keeps the row; everything else is kept.  Returns the
deleted count and the kept rows in order. -/
def cleanupLoop (cutoff : Int) (fsExists unlinkOk : String → Bool) :
    List Recording → Nat × List Recording
  | [] => (0, [])
  | r :: rest =>
    let res := cleanupLoop cutoff fsExists unlinkOk rest
    match r.completedAt with
    | some t =>
      if t < cutoff then
        match r.outputPath with
        | some p =>
          if fsExists p then
            if unlinkOk p then (res.1 + 1, res.2)
            else (res.1, r :: res.2)
          else (res.1 + 1, res.2)
        | Option.none => (res.1 + 1, res.2)
      else (res.1, r :: res.2)
    | Option.none => (res.1, r :: res.2)

/-- `cleanupOldRecordings()` of the storage module: no-op when
`autoDeleteAfterDays <= 0`, otherwise purge by the cutoff
`now - autoDeleteAfterDays` days. -/
def cleanupOldRecordings (autoDeleteAfterDays : Int) (now : Int)
    (fsExists unlinkOk : String → Bool) (recordings : List Recording) :
    Nat × List Recording :=
  if autoDeleteAfterDays ≤ 0 then (0, recordings)
  else cleanupLoop (now - autoDeleteAfterDays * 24 * 60 * 60 * 1000) fsExists unlinkOk recordings

/-- `new Date(completedAt).getTime()` of a candidate (candidates always
have `completedAt` set). -/
def completedAtKey (r : Recording) : Int := r.completedAt.getD 0

/-- The quota purge candidates: recordings with `completedAt` and
`outputPath` set, sorted by completion date ascending (JavaScript
`Array.prototype.sort` is stable; `List.insertionSort` is the matching
stable sort). -/
def sortedCandidates (recordings : List Recording) : List Recording :=
  List.insertionSort (fun a b => completedAtKey a ≤ completedAtKey b)
    (recordings.filter (fun r => r.completedAt.isSome && r.outputPath.isSome))

/-- Deletability of a candidate in one sweep: its output file exists (its
size is known) and unlinking succeeds. -/
def candidateDeletable (fsSize : String → Option Rat) (unlinkOk : String → Bool)
    (r : Recording) : Bool :=
  match r.outputPath with
  | some p => (fsSize p).isSome && unlinkOk p
  | Option.none => false

/-- Deletion loop of `enforceStorageLimit`: walk the sorted candidates,
stop as soon as the tracked storage is within the cap, delete each
candidate whose file exists and can be unlinked, subtracting its size in
GB.  Returns the deleted candidates in order and the final tracked
storage. -/
def quotaLoop (cap : Rat) (fsSize : String → Option Rat) (unlinkOk : String → Bool) :
    List Recording → Rat → List Recording × Rat
  | [], cur => ([], cur)
  | r :: rest, cur =>
    if cur ≤ cap then ([], cur)
    else
      match r.outputPath with
      | some p =>
        match fsSize p with
        | some sz =>
          if unlinkOk p then
            let res := quotaLoop cap fsSize unlinkOk rest (cur - sz / gb)
            (r :: res.1, res.2)
          else quotaLoop cap fsSize unlinkOk rest cur
        | Option.none => quotaLoop cap fsSize unlinkOk rest cur
      | Option.none => quotaLoop cap fsSize unlinkOk rest cur

/-- `enforceStorageLimit()` of the storage module: no-op when the cap is
non-positive or the total is already within it; otherwise run the deletion
loop over the sorted candidates and drop the deleted rows.  Returns the
deleted rows, the remaining document, and the tracked storage in GB. -/
def enforceStorageLimit (maxStorageGB : Rat) (fsSize : String → Option Rat)
    (unlinkOk : String → Bool) (recordings : List Recording) :
    List Recording × List Recording × Rat :=
  let cur0 := getTotalStorageUsed fsSize recordings
  if maxStorageGB ≤ 0 then ([], recordings, cur0)
  else if cur0 ≤ maxStorageGB then ([], recordings, cur0)
  else
    let res := quotaLoop maxStorageGB fsSize unlinkOk (sortedCandidates recordings) cur0
    (res.1, recordings.filter (fun r => !(res.1.any (fun d => d.id == r.id))), res.2)

/-- Size in GB a candidate contributes when deleted. -/
def sizeGBOf (fsSize : String → Option Rat) (r : Recording) : Rat :=
  ((r.outputPath.bind fsSize).getD 0) / gb

/-! ## Stitch driver (`mergeRecordingParts` of `ffmpeg.ts`) -/

/-- Environment of one `mergeRecordingParts` invocation: segment sizes on
disk (`none` models a missing file or failing `statSync`), unlink success,
rename success, list-file write success, the concat subprocess spawn error
and exit status (`none` models a `null` status), and the size of the
destination after the concat run. -/
structure MergeEnv where
  fsSize : String → Option Rat
  unlinkOk : String → Bool
  renameOk : Bool
  listWriteOk : Bool
  spawnError : Option String
  concatExit : Option Int
  finalSize : Option Rat

/-- Sum of the segment sizes as computed post-concat (`statSync` per part,
failures skipped). -/
def sourceSize (env : MergeEnv) (partPaths : List String) : Rat :=
  partPaths.foldl (fun acc p => acc + ((env.fsSize p).getD 0)) 0

/-- `mergeRecordingParts(partPaths, finalPath)` of `src/lib/ffmpeg.ts` as a
pure function.  Result: the boolean return value and the list of segment
files deleted; thrown errors through `Except.error`.

Source behaviour embedded: empty input returns `false`; a single segment is
renamed onto the destination; otherwise the concat list is built from the
segments that exist, the subprocess runs, and -- when the destination can
be statted -- a successful exit with a destination smaller than 90% of the
summed segment sizes returns `false` without deleting anything, a
successful exit otherwise deletes the segments and returns `true`, and a
failed exit returns `true` without deleting (the late throw on a non-zero
status is unreachable then); when the destination cannot be statted the
spawn error or non-zero status is thrown, else `true`. -/
def mergeRecordingParts (env : MergeEnv) (partPaths : List String)
    (finalPath : String) : Except String (Bool × List String) :=
  match partPaths with
  | [] => Except.ok (false, [])
  | [single] =>
    if single ≠ finalPath then
      if env.renameOk then Except.ok (true, [])
      else Except.error ("Failed to move " ++ single ++ " to " ++ finalPath)
    else Except.ok (true, [])
  | _ =>
    let lines := partPaths.filter (fun p => (env.fsSize p).isSome)
    if lines.isEmpty then Except.error "No valid part files found to merge"
    else if ¬ env.listWriteOk then Except.error "Failed to write concat list file"
    else
      match env.finalSize with
      | some finalSz =>
        if env.concatExit = some 0 ∧ finalSz < sourceSize env partPaths * (9 / 10) then
          Except.ok (false, [])
        else if env.concatExit = some 0 then
          Except.ok (true, partPaths.filter env.unlinkOk)
        else Except.ok (true, [])
      | Option.none =>
        match env.spawnError with
        | some e => Except.error e
        | Option.none =>
          if env.concatExit ≠ some 0 then Except.error "FFmpeg concat failed"
          else Except.ok (true, [])

/-! ## Concrete sample data used by counterexamples and witnesses -/

/-- A freshly created, unfinished persisted row. -/
def sampleRow : Recording :=
  { id := "r1", name := "A", rtspUrl := "rtsp://h/s",
    startTime := "2025-01-01T00:00:00.000Z", duration := 5,
    success := Option.none, outputPath := Option.none,
    createdAt := 0, updatedAt := 0, completedAt := Option.none,
    errorMessage := Option.none }

/-- A scheduled row with a one-hour duration. -/
def sampleScheduledRow : Recording :=
  { sampleRow with id := "r2", duration := 3600 }

/-- The supervisor state matching `sampleScheduledRow`. -/
def sampleMgr : ManagerState :=
  { status := RecordingStatus.scheduled, name := "A", url := "rtsp://h/s",
    startTime := "2025-01-01T00:00:00.000Z", duration := 3600 }

/-- Milliseconds in one day. -/
def dayMs : Int := 24 * 60 * 60 * 1000

/-- A failed recording completed on day 90 (no output file, as `finish`
clears `outputPath` on failure). -/
def sampleFailedRow : Recording :=
  { sampleRow with
    id := "r3",
    success := some false,
    completedAt := some (90 * dayMs),
    errorMessage := some "FFmpeg process error" }

/-- Quota-scenario recording: 0.6 GB, completed first. -/
def demoOld : Recording :=
  { sampleRow with
    id := "q1",
    name := "old",
    success := some true,
    outputPath := some "old.mp4",
    completedAt := some 1000 }

/-- Quota-scenario recording: 0.5 GB, completed second. -/
def demoMid : Recording :=
  { sampleRow with
    id := "q2",
    name := "mid",
    success := some true,
    outputPath := some "mid.mp4",
    completedAt := some 2000 }

/-- Quota-scenario recording: 0.5 GB, completed third. -/
def demoNew : Recording :=
  { sampleRow with
    id := "q3",
    name := "new",
    success := some true,
    outputPath := some "new.mp4",
    completedAt := some 3000 }

/-- The quota scenario document, in chronological completion order. -/
def demoRecs : List Recording := [demoOld, demoMid, demoNew]

/-- On-disk sizes of the quota scenario: 0.6, 0.5, 0.5 GB. -/
def demoFsSize (p : String) : Option Rat :=
  if p = "old.mp4" then some ((3 / 5) * gb)
  else if p = "mid.mp4" then some ((1 / 2) * gb)
  else if p = "new.mp4" then some ((1 / 2) * gb)
  else Option.none

/-- The concrete stitch environment of the C4 witness: two 100-byte
segments, a clean concat exit. -/
def demoMergeEnv : MergeEnv :=
  { fsSize := fun p =>
      if p = "p1.mp4" then some 100
      else if p = "p2.mp4" then some 100
      else Option.none,
    unlinkOk := fun _ => true,
    renameOk := true,
    listWriteOk := true,
    spawnError := Option.none,
    concatExit := some 0,
    finalSize := some 150 }

/-! ## Helper lemmas -/

/-- Every character produced by `Nat.digitChar` on a value below 10 is a
decimal digit. -/
theorem digitChar_isDigit (m : Nat) (h : m < 10) : (Nat.digitChar m).isDigit = true := by
  interval_cases m <;> decide

/-- All characters accumulated by `Nat.toDigitsCore` with base 10 on a list
of digits are digits. -/
theorem toDigitsCore_digits (fuel : Nat) :
    ∀ (n : Nat) (ds : List Char), (∀ c ∈ ds, c.isDigit = true) →
      ∀ c ∈ Nat.toDigitsCore 10 fuel n ds, c.isDigit = true := by
  induction fuel with
  | zero => intro n ds hds; simpa [Nat.toDigitsCore] using hds
  | succ f ih =>
    intro n ds hds c hc
    unfold Nat.toDigitsCore at hc
    by_cases hz : n / 10 = 0
    · simp only [hz, if_pos rfl] at hc
      rcases List.mem_cons.mp hc with h | h
      · subst h; exact digitChar_isDigit _ (Nat.mod_lt _ (by omega))
      · exact hds _ h
    · simp only [hz, if_neg hz] at hc
      refine ih (n / 10) (Nat.digitChar (n % 10) :: ds) ?_ c hc
      intro d hd
      rcases List.mem_cons.mp hd with h | h
      · subst h; exact digitChar_isDigit _ (Nat.mod_lt _ (by omega))
      · exact hds _ h

/-- All characters of the decimal rendering of a natural number are
digits. -/
theorem natRepr_digits (n : Nat) : ∀ c ∈ (toString n).data, c.isDigit = true := by
  intro c hc
  have : (toString n).data = Nat.toDigitsCore 10 (n + 1) n [] := rfl
  rw [this] at hc
  exact toDigitsCore_digits (n + 1) n [] (by intro d hd; cases hd) c hc

/-- The sanitized name contains no path separator. -/
theorem getSanitizedName_no_sep (name : String) : '/' ∉ (getSanitizedName name).data := by
  intro hmem
  simp only [getSanitizedName, List.mem_map] at hmem
  obtain ⟨a, _, ha⟩ := hmem
  by_cases h : a.isAlphanum <;> simp [h] at ha
  · subst ha; exact absurd h (by decide)

/-! ## Claim theorems -/

/-- Claim C8: for every settings value, `buildFFmpegArgs` returns the
argument list in exactly the order: hwaccel input flags (empty for `none`),
`-rtsp_transport`, `-rtsp_flags prefer_tcp`, `-i url`, `-c:v`, `-c:a`,
`-t duration`, the mp4-only `-movflags +faststart`, `-y`, the output path;
with the hwaccel input flags given by the claimed per-vendor mapping. -/
theorem c8_buildFFmpegArgs_order (s : Settings) (url out : String) (dur : Int) :
    buildFFmpegArgs s url out dur =
      specHwaccelInputFlags s.hardwareAcceleration
      ++ ["-rtsp_transport", s.rtspTransport.str]
      ++ ["-rtsp_flags", "prefer_tcp"]
      ++ ["-i", url]
      ++ ["-c:v", resolvedVideoCodec s]
      ++ ["-c:a", resolvedAudioCodec s]
      ++ ["-t", toString dur]
      ++ (if s.outputFormat = OutputFormat.mp4 then ["-movflags", "+faststart"]
          else [])
      ++ ["-y", out] := by
  have hpair : ∀ (P : Prop) [Decidable P] (x y z : String),
      (if P then [x, y] else [x, z]) = [x, if P then y else z] := by
    intro P _ x y z
    split <;> rfl
  rcases s with ⟨fp, hw, fmt, vc, ac, dd, rt, ra, rd, od, mx, ad⟩
  cases hw <;>
    simp [buildFFmpegArgs, resolvedVideoCodec, resolvedAudioCodec,
      specHwaccelInputFlags, getHardwareAccelArgs, hpair]

/-- Claim C10: the sanitized name maps every character outside
`[a-zA-Z0-9]` to an underscore, hence matches `[A-Za-z0-9_]*`; consequently
the per-attempt file name and the final file name contain no path
separator (the timestamp, attempt counter, id and extension components
contain none), so joining them under the output directory yields an entry
directly inside that directory, regardless of the user-supplied name. -/
theorem c10_sanitized_paths_safe (name timestamp fmt id : String) (attempt : Nat)
    (hts : '/' ∉ timestamp.data) (hfmt : '/' ∉ fmt.data) (hid : '/' ∉ id.data) :
    (∀ c ∈ (getSanitizedName name).data, c.isAlphanum = true ∨ c = '_') ∧
    '/' ∉ (attemptFileName name timestamp attempt fmt).data ∧
    '/' ∉ (finalFileName name id fmt).data := by
  refine ⟨?_, ?_, ?_⟩
  · intro c hc
    simp only [getSanitizedName, List.mem_map] at hc
    obtain ⟨a, -, ha⟩ := hc
    by_cases h : a.isAlphanum
    · left; rw [← ha]; simp [h]
    · right; rw [← ha]; simp [h]
  · intro hmem
    simp only [attemptFileName, String.data_append, List.mem_append] at hmem
    rcases hmem with ((((((h | h) | h) | h) | h) | h) | h)
    · exact getSanitizedName_no_sep name h
    · exact absurd h (by decide)
    · exact hts h
    · exact absurd h (by decide)
    · exact absurd (natRepr_digits attempt _ h) (by decide)
    · exact absurd h (by decide)
    · exact hfmt h
  · intro hmem
    simp only [finalFileName, String.data_append, List.mem_append] at hmem
    rcases hmem with ((((h | h) | h) | h) | h)
    · exact getSanitizedName_no_sep name h
    · exact absurd h (by decide)
    · exact hid h
    · exact absurd h (by decide)
    · exact hfmt h

/-- Witness for C10 at a hostile concrete name containing separators and a
parent-directory sequence. -/
theorem c10_sanitized_paths_safe_witness :
    '/' ∉ (attemptFileName "cam/1 ../x" "2025-01-01T00-00-00-000Z" 1 "mp4").data ∧
    '/' ∉ (finalFileName "cam/1 ../x" "id42" "mp4").data := by
  have h := c10_sanitized_paths_safe "cam/1 ../x" "2025-01-01T00-00-00-000Z" "mp4" "id42" 1
    (by decide) (by decide) (by decide)
  exact ⟨h.2.1, h.2.2⟩

/-- Claim C7: for every complete RTSP response, the prober's result is
determined by the start line: `2xx` yields live, `404` yields not found,
any other numeric status yields error, and a non-`RTSP/1.0` or
non-numeric start line yields invalid; checked both in general and on
concrete responses of each class. -/
theorem c7_rtsp_classification :
    (∀ raw : String, processResponse raw = specProbeClassification (statusLineOf raw.data)) ∧
    processResponse "RTSP/1.0 200 OK\r\nCSeq: 1\r\nContent-Length: 0\r\n\r\n"
      = StreamStatus.live ∧
    processResponse "RTSP/1.0 404 Not Found\r\nCSeq: 2\r\n\r\n" = StreamStatus.not_found ∧
    processResponse "RTSP/1.0 454 Session Not Found\r\nCSeq: 3\r\n\r\n"
      = StreamStatus.error ∧
    processResponse "HTTP/1.1 200 OK\r\n\r\n" = StreamStatus.invalid ∧
    processResponse "RTSP/1.0 OK\r\n\r\n" = StreamStatus.invalid := by
  refine ⟨?_, by decide, by decide, by decide, by decide, by decide⟩
  intro raw
  unfold processResponse classifyStatusLine specProbeClassification statusCodeOfStartLine
  cases h : "RTSP/1.0".data.isPrefixOf (statusLineOf raw.data) with
  | false => simp [h]
  | true =>
    simp only [h, not_true_eq_false, if_false, if_true]
    cases ((splitOnSpace (statusLineOf raw.data)).get? 1).bind jsParseInt <;> rfl

/-- Counterexample to claim C6 as stated: calling `stop()` on a supervisor
in the terminal status `completed` changes its observable status to
`cancelled`, so the call is not a no-op. -/
theorem c6_counterexample :
    (SupervisorState.stop { status := RecordingStatus.completed, aborted := true }).status
      ≠ RecordingStatus.completed := by
  decide

/-- Claim C6 amended: `stop()` is unconditional -- from every state,
terminal or not, it aborts the token and sets the status to `cancelled`;
it performs no persistence write itself, so the persisted outcome is
untouched, but the in-memory status is not preserved. -/
theorem c6_stop_unconditional (s : SupervisorState) :
    (SupervisorState.stop s).status = RecordingStatus.cancelled ∧
    (SupervisorState.stop s).aborted = true := by
  exact ⟨rfl, rfl⟩

/-- Counterexample to claim C1 as stated: a recording that reached the
terminal status `completed` with one attempt path is demoted by a stitch
failure -- `finish` records `success = false` (and status `failed`), not
the pre-stitch outcome. -/
theorem c1_counterexample :
    (finish RecordingStatus.completed ["a1.mp4"] "A_r1.mp4" Option.none
      (some "FFmpeg concat failed") (some sampleRow) 100).1 = RecordingStatus.failed ∧
    ((finish RecordingStatus.completed ["a1.mp4"] "A_r1.mp4" Option.none
      (some "FFmpeg concat failed") (some sampleRow) 100).2.map Recording.success)
      = some (some false) := by
  exact ⟨rfl, rfl⟩

/-- Claim C1 amended: when the stitch throws during `finish`, the pre-stitch
terminal outcome is not preserved -- the status becomes `failed`, the row is
written with `success = false` and `outputPath` cleared, and `errorMessage`
is set to the stitch error with any pre-stitch message appended after a
separator. -/
theorem c1_stitch_failure_demotes (status : RecordingStatus) (paths : List String)
    (fp : String) (msg : Option String) (e : String) (r : Recording) (now : Int)
    (hpaths : paths ≠ []) (hrow : r.success = Option.none) :
    finish status paths fp msg (some e) (some r) now =
      (RecordingStatus.failed,
        some { r with
          success := some false,
          outputPath := Option.none,
          errorMessage := some (mergeFailureMessage e msg),
          updatedAt := now,
          completedAt := some now }) := by
  have hlen : 0 < paths.length := List.length_pos.mpr hpaths
  simp [finish, hrow, hlen]

/-- Witness for the amended C1 at a concrete completed recording with one
attempt whose stitch throws. -/
theorem c1_stitch_failure_demotes_witness :
    (["a1.mp4"] : List String) ≠ [] ∧
    finish RecordingStatus.completed ["a1.mp4"] "A_r1.mp4" Option.none (some "boom")
        (some sampleRow) 100 =
      (RecordingStatus.failed,
        some { sampleRow with
          success := some false,
          outputPath := Option.none,
          errorMessage := some (mergeFailureMessage "boom" Option.none),
          updatedAt := 100,
          completedAt := some 100 }) := by
  exact ⟨by decide,
    c1_stitch_failure_demotes RecordingStatus.completed ["a1.mp4"] "A_r1.mp4"
      Option.none "boom" sampleRow 100 (by decide) rfl⟩

/-- Counterexample to claim C5 as stated: the subprocess close handler with
the output directory missing, no abort and no remaining duration finalizes
as `completed` with zero attempt paths and no message, and `finish` then
writes `success = false` with `errorMessage` left unset. -/
theorem c5_counterexample :
    closeHandler false false 0 [] "att1.mp4"
      = CloseAction.finalize RecordingStatus.completed [] Option.none ∧
    (finish RecordingStatus.completed [] "A_r1.mp4" Option.none Option.none
        (some sampleRow) 100).2
      = some { sampleRow with
          success := some false,
          outputPath := Option.none,
          errorMessage := Option.none,
          updatedAt := 100,
          completedAt := some 100 } := by
  exact ⟨rfl, rfl⟩

/-- Claim C5 amended: a row written by `finish` with `success = false` has
`errorMessage` set except when `finish` was invoked without an error
message, which happens only on the completed-exit close path; in
particular a stitch failure always sets it. -/
theorem c5_success_false_error_message (status : RecordingStatus) (paths : List String)
    (fp : String) (msg : Option String) (mergeOutcome : Option String)
    (row : Option Recording) (now : Int) (r2 : Recording)
    (hw : (finish status paths fp msg mergeOutcome row now).2 = some r2)
    (hs : r2.success = some false) :
    r2.errorMessage.isSome = true ∨ msg = Option.none := by
  cases msg with
  | none => exact Or.inr rfl
  | some m =>
    left
    cases row with
    | none =>
      exfalso
      simp [finish] at hw
    | some r =>
      by_cases hdone : r.success.isSome
      · exfalso
        simp [finish, hdone] at hw
      · by_cases hlen : 0 < paths.length
        · cases mergeOutcome with
          | none =>
            simp [finish, hdone, hlen] at hw
            subst hw
            rfl
          | some e =>
            simp [finish, hdone, hlen] at hw
            subst hw
            rfl
        · simp [finish, hdone, hlen] at hw
          subst hw
          rfl

/-- Witness for the amended C5 at a concrete failed finalization that does
carry an error message: the written row keeps it. -/
theorem c5_success_false_error_message_witness :
    ({ sampleRow with
        success := some false,
        outputPath := Option.none,
        errorMessage := some "probe never live",
        updatedAt := 100,
        completedAt := some 100 } : Recording).errorMessage.isSome = true
      ∨ (some "probe never live" : Option String) = Option.none :=
  c5_success_false_error_message RecordingStatus.failed ["a1.mp4"] "A_r1.mp4"
    (some "probe never live") Option.none (some sampleRow) 100 _ rfl rfl

/-- Claim C3 refuted by evaluation (code bug): an update command carrying
`duration = 0` on a scheduled recording is not rejected -- the manager's
truthiness-guarded validation skips `0` -- and the object spread then
persists `duration = 0`, breaking the strictly-positive invariant.  A
strictly negative duration is rejected with the state unchanged. -/
theorem c3_zero_duration_accepted :
    sampleScheduledRow.duration = 3600 ∧
    updateRecording (fun _ => true) [sampleScheduledRow] "r2" sampleMgr
        { name := Option.none, url := Option.none, startTime := Option.none,
          duration := some 0 } 50
      = Except.ok (some ([{ sampleScheduledRow with duration := 0, updatedAt := 50 }],
          sampleMgr)) ∧
    updateRecording (fun _ => true) [sampleScheduledRow] "r2" sampleMgr
        { name := Option.none, url := Option.none, startTime := Option.none,
          duration := some (-5) } 50
      = Except.error "Invalid duration provided for update. Must be a positive number." := by
  exact ⟨rfl, rfl, rfl⟩

/-- Claim C2 refuted by evaluation (code bug): with `autoDeleteAfterDays = 7`,
the retention purge deletes the persistence row of a recording with
`success = false` whose `completedAt` is 10 days old -- the purge filters
only on `completedAt`, not on `success`, contradicting the claim (and the
code's own comment restricting the purge to completed recordings). -/
theorem c2_cleanup_deletes_failed_recording :
    sampleFailedRow.success = some false ∧
    cleanupOldRecordings 7 (100 * dayMs) (fun _ => false) (fun _ => true)
      [sampleFailedRow] = (1, []) := by
  exact ⟨rfl, rfl⟩

/-- Claim C4: on a stitch of two or more segments whose files are on disk,
when the concat subprocess exits successfully the driver checks the
destination size: below 90% of the summed segment sizes it reports failure
(`false`) to the caller and deletes nothing; at or above 90% it reports
success and deletes the segment files. -/
theorem c4_stitch_size_verification (env : MergeEnv) (parts : List String)
    (finalPath : String) (fsz : Rat)
    (h2 : 2 ≤ parts.length)
    (hfs : ∀ p ∈ parts, (env.fsSize p).isSome = true)
    (hul : ∀ p ∈ parts, env.unlinkOk p = true)
    (hlw : env.listWriteOk = true)
    (hexit : env.concatExit = some 0)
    (hfinal : env.finalSize = some fsz) :
    (fsz < sourceSize env parts * (9 / 10) →
      mergeRecordingParts env parts finalPath = Except.ok (false, [])) ∧
    (¬ fsz < sourceSize env parts * (9 / 10) →
      mergeRecordingParts env parts finalPath = Except.ok (true, parts)) := by
  rcases parts with _ | ⟨a, rest1⟩
  · simp at h2
  rcases rest1 with _ | ⟨b, rest⟩
  · simp at h2
  have hfilter : (a :: b :: rest).filter (fun p => (env.fsSize p).isSome) = a :: b :: rest :=
    List.filter_eq_self.mpr (by intro x hx; simpa using hfs x hx)
  have hfilter2 : (a :: b :: rest).filter env.unlinkOk = a :: b :: rest :=
    List.filter_eq_self.mpr (fun x hx => hul x hx)
  constructor
  · intro hlt
    simp [mergeRecordingParts, hfilter, hlw, hfinal, hexit, hlt]
  · intro hge
    simp [mergeRecordingParts, hfilter, hfilter2, hlw, hfinal, hexit, hge]

/-- Witness for C4: with segment sizes 100 + 100, a 150-byte destination
(below the 180-byte 90% bound) is reported suspicious with no deletion,
and a 195-byte destination passes and the segments are deleted. -/
theorem c4_stitch_size_verification_witness :
    mergeRecordingParts demoMergeEnv ["p1.mp4", "p2.mp4"] "final.mp4"
      = Except.ok (false, []) ∧
    mergeRecordingParts { demoMergeEnv with finalSize := some 195 }
        ["p1.mp4", "p2.mp4"] "final.mp4"
      = Except.ok (true, ["p1.mp4", "p2.mp4"]) := by
  have hsrc : sourceSize demoMergeEnv ["p1.mp4", "p2.mp4"] = 200 := by
    norm_num [sourceSize, demoMergeEnv, List.foldl]
  have hfs : ∀ p ∈ (["p1.mp4", "p2.mp4"] : List String),
      (demoMergeEnv.fsSize p).isSome = true := by
    intro p hp
    simp only [List.mem_cons, List.not_mem_nil, or_false] at hp
    rcases hp with rfl | rfl <;> rfl
  constructor
  · refine (c4_stitch_size_verification demoMergeEnv ["p1.mp4", "p2.mp4"] "final.mp4" 150
      (by decide) hfs (fun p _ => rfl) rfl rfl rfl).1 ?_
    rw [hsrc]
    norm_num
  · refine (c4_stitch_size_verification { demoMergeEnv with finalSize := some 195 }
      ["p1.mp4", "p2.mp4"] "final.mp4" 195
      (by decide) hfs (fun p _ => rfl) rfl rfl rfl).2 ?_
    have hsrc2 : sourceSize { demoMergeEnv with finalSize := some 195 }
        ["p1.mp4", "p2.mp4"] = 200 := by
      norm_num [sourceSize, demoMergeEnv, List.foldl]
    rw [hsrc2]
    norm_num

/-- Characterization of the quota deletion loop: when every candidate's
file exists and can be unlinked, the loop deletes exactly a prefix of the
candidate list -- it stops at the first point where the tracked storage is
within the cap (or exhausts the list), and before every deletion the
storage was still over the cap. -/
theorem quotaLoop_spec (cap : Rat) (fsSize : String → Option Rat)
    (unlinkOk : String → Bool) (l : List Recording) :
    ∀ cur : Rat, (∀ r ∈ l, candidateDeletable fsSize unlinkOk r = true) →
    ∃ k, (quotaLoop cap fsSize unlinkOk l cur).1 = l.take k ∧
      (quotaLoop cap fsSize unlinkOk l cur).2
        = cur - ((l.take k).map (sizeGBOf fsSize)).sum ∧
      ((quotaLoop cap fsSize unlinkOk l cur).2 ≤ cap ∨ k = l.length) ∧
      (∀ j < k, cap < cur - ((l.take j).map (sizeGBOf fsSize)).sum) := by
  induction l with
  | nil =>
    intro cur hdel
    refine ⟨0, rfl, by simp [quotaLoop], Or.inr rfl, ?_⟩
    intro j hj
    omega
  | cons r rest ih =>
    intro cur hdel
    by_cases hstop : cur ≤ cap
    · refine ⟨0, by simp [quotaLoop, hstop], by simp [quotaLoop, hstop],
        Or.inl (by simp [quotaLoop, hstop]), ?_⟩
      intro j hj
      omega
    · have hr := hdel r (List.mem_cons_self r rest)
      obtain ⟨p, hp⟩ : ∃ p, r.outputPath = some p := by
        cases hop : r.outputPath with
        | none => rw [candidateDeletable, hop] at hr; cases hr
        | some p => exact ⟨p, rfl⟩
      have hsz2 : (fsSize p).isSome = true ∧ unlinkOk p = true := by
        have := hr
        rw [candidateDeletable, hp] at this
        simpa using this
      obtain ⟨sz, hszv⟩ : ∃ sz, fsSize p = some sz := Option.isSome_iff_exists.mp hsz2.1
      obtain ⟨k, h1, h2, h3, h4⟩ :=
        ih (cur - sz / gb) (fun x hx => hdel x (List.mem_cons_of_mem _ hx))
      have hq : quotaLoop cap fsSize unlinkOk (r :: rest) cur
          = (r :: (quotaLoop cap fsSize unlinkOk rest (cur - sz / gb)).1,
             (quotaLoop cap fsSize unlinkOk rest (cur - sz / gb)).2) := by
        simp [quotaLoop, hstop, hp, hszv, hsz2.2]
      have hsgb : sizeGBOf fsSize r = sz / gb := by
        simp [sizeGBOf, hp, hszv]
      refine ⟨k + 1, ?_, ?_, ?_, ?_⟩
      · rw [hq, List.take_succ_cons, h1]
      · rw [hq]
        simp only [List.take_succ_cons, List.map_cons, List.sum_cons, hsgb, h2]
        ring
      · rcases h3 with h | h
        · left
          rw [hq]
          exact h
        · right
          simp [h]
      · intro j hj
        cases j with
        | zero => simpa using not_le.mp hstop
        | succ j2 =>
          have hj2 : j2 < k := by omega
          have := h4 j2 hj2
          simp only [List.take_succ_cons, List.map_cons, List.sum_cons, hsgb]
          linarith

/-- Claim C9: with a positive cap, the quota sweep's candidate list is
sorted by `completedAt` ascending, and the sweep deletes exactly a prefix
of it: it stops as soon as the remaining tracked total is at most the cap
or the candidates are exhausted, and every deletion happened while the
total was still over the cap. -/
theorem c9_quota_purge (cap : Rat) (fsSize : String → Option Rat)
    (unlinkOk : String → Bool) (rs : List Recording) (hcap : 0 < cap)
    (hdel : ∀ r ∈ sortedCandidates rs, candidateDeletable fsSize unlinkOk r = true) :
    List.Pairwise (fun a b => completedAtKey a ≤ completedAtKey b) (sortedCandidates rs) ∧
    ∃ k, (enforceStorageLimit cap fsSize unlinkOk rs).1 = (sortedCandidates rs).take k ∧
      (enforceStorageLimit cap fsSize unlinkOk rs).2.2
        = getTotalStorageUsed fsSize rs
          - (((sortedCandidates rs).take k).map (sizeGBOf fsSize)).sum ∧
      ((enforceStorageLimit cap fsSize unlinkOk rs).2.2 ≤ cap
        ∨ k = (sortedCandidates rs).length) ∧
      ∀ j < k, cap < getTotalStorageUsed fsSize rs
          - (((sortedCandidates rs).take j).map (sizeGBOf fsSize)).sum := by
  constructor
  · haveI : IsTotal Recording (fun a b => completedAtKey a ≤ completedAtKey b) :=
      ⟨fun a b => le_total _ _⟩
    haveI : IsTrans Recording (fun a b => completedAtKey a ≤ completedAtKey b) :=
      ⟨fun _ _ _ hab hbc => le_trans hab hbc⟩
    exact List.sorted_insertionSort _ _
  · have hnc : ¬ cap ≤ 0 := not_le.mpr hcap
    by_cases hunder : getTotalStorageUsed fsSize rs ≤ cap
    · refine ⟨0, ?_, ?_, Or.inl ?_, ?_⟩
      · simp [enforceStorageLimit, hnc, hunder]
      · simp [enforceStorageLimit, hnc, hunder]
      · simp only [enforceStorageLimit, hnc, if_false, hunder, if_true]
      · intro j hj
        omega
    · obtain ⟨k, h1, h2, h3, h4⟩ := quotaLoop_spec cap fsSize unlinkOk
        (sortedCandidates rs) (getTotalStorageUsed fsSize rs) hdel
      have he : enforceStorageLimit cap fsSize unlinkOk rs
          = ((quotaLoop cap fsSize unlinkOk (sortedCandidates rs)
                (getTotalStorageUsed fsSize rs)).1,
             rs.filter (fun r => !((quotaLoop cap fsSize unlinkOk (sortedCandidates rs)
                (getTotalStorageUsed fsSize rs)).1.any (fun d => d.id == r.id))),
             (quotaLoop cap fsSize unlinkOk (sortedCandidates rs)
                (getTotalStorageUsed fsSize rs)).2) := by
        simp [enforceStorageLimit, hnc, hunder]
      exact ⟨k, by rw [he]; exact h1, by rw [he]; exact h2,
        by rw [he]; exact h3, h4⟩

/-- Witness for C9 at the spec scenario: cap 1 GB, three successful
recordings of 0.6, 0.5, 0.5 GB completed in that order -- exactly the
oldest is deleted and 1.0 GB remains. -/
theorem c9_quota_purge_witness :
    (enforceStorageLimit 1 demoFsSize (fun _ => true) demoRecs).1 = [demoOld] ∧
    (enforceStorageLimit 1 demoFsSize (fun _ => true) demoRecs).2.2 = 1 := by
  have hdel : ∀ r ∈ sortedCandidates demoRecs,
      candidateDeletable demoFsSize (fun _ => true) r = true := by decide
  obtain ⟨-, k, h1, h2, h3, h4⟩ :=
    c9_quota_purge 1 demoFsSize (fun _ => true) demoRecs (by norm_num) hdel
  have hsorted : sortedCandidates demoRecs = [demoOld, demoMid, demoNew] := by decide
  have htot : getTotalStorageUsed demoFsSize demoRecs = 8 / 5 := by
    simp [getTotalStorageUsed, demoRecs, List.foldl, fileSizeOf,
      demoOld, demoMid, demoNew, sampleRow, demoFsSize]
    norm_num [gb]
  have hold : sizeGBOf demoFsSize demoOld = 3 / 5 := by
    simp [sizeGBOf, demoOld, sampleRow, demoFsSize]
    norm_num [gb]
  have hkge : 1 ≤ k := by
    by_contra hcon
    have hk0 : k = 0 := by omega
    subst hk0
    rw [hsorted] at h3
    rcases h3 with h | h
    · rw [h2, hsorted, htot] at h
      norm_num at h
    · simp at h
  have hkle : k ≤ 1 := by
    by_contra hcon
    have h1lt : 1 < k := by omega
    have := h4 1 h1lt
    rw [htot, hsorted] at this
    simp only [List.take_succ_cons, List.take_zero, List.map_cons, List.map_nil,
      List.sum_cons, List.sum_nil, hold] at this
    norm_num at this
  have hk1 : k = 1 := by omega
  subst hk1
  constructor
  · rw [h1, hsorted]
    rfl
  · rw [h2, hsorted, htot]
    simp only [List.take_succ_cons, List.take_zero, List.map_cons, List.map_nil,
      List.sum_cons, List.sum_nil, hold]
    norm_num

end StreamRecorder
